import Mathlib

/-!
Verification of the go-gittools token / git / GitHub-client core.

Shallow embedding of the repository's Go sources:
* `internal/token` (token model, env-backed and memory-backed storage,
  refresh manager),
* `internal/github` (API client request sender, scope validation),
* `internal/git` (clone orchestration and git subprocess retry loop),
* `internal/urlutils` (token URL formatting).

Machine integers do not occur in the modelled code; times are modelled as
natural numbers (`0` plays the role of Go's zero `time.Time`), and Go
`error` values are modelled as inductive error types whose constructors
mirror the package-level sentinel errors, with `msg` covering ad-hoc
`errors.New` / `fmt.Errorf` values (two ad-hoc errors are equal exactly
when Go's `errors.Is` chain would identify them, which for leaf errors
created by `errors.New` means: never equal to a distinct sentinel).
-/

namespace GoGitTools

/-- Token from `internal/token` (refresh_test.go, embedded token.go chunk):
`Value string`, `ExpiresAt time.Time` (zero value = never expires, modelled
as `0`), `Scope string`, `CreatedAt time.Time`. -/
structure Token where
  value : String
  expiresAt : Nat
  scope : String
  createdAt : Nat
  deriving Repr, DecidableEq

/-- `IsValid` from token.go: only checks the value is non-empty. -/
def IsValid (t : Token) : Bool :=
  t.value != ""

/-- `IsExpired` from token.go: zero `ExpiresAt` is never expired, otherwise
expired iff `time.Now().After(ExpiresAt)`; `now` is passed explicitly. -/
def IsExpired (now : Nat) (t : Token) : Bool :=
  if t.expiresAt = 0 then false else now > t.expiresAt

/-- Error model for `internal/token`: the package sentinels
(`ErrTokenNotFound`, `ErrTokenInvalid`, `ErrTokenExpired`, ...) become
constructors; `msg s` stands for an ad-hoc `errors.New(s)` /
`fmt.Errorf(s)` value, which is a distinct error from every sentinel. -/
inductive TokenError where
  | notFound
  | invalid
  | expired
  | storageUnavailable
  | refreshFailed
  | msg (s : String)
  deriving Repr, DecidableEq

/-- `NewToken` from token.go: empty value fails with the ad-hoc error
`errors.New("token value cannot be empty")` (not the `ErrTokenInvalid`
sentinel); otherwise the token is stamped with `CreatedAt = time.Now()`
(passed here as `now`) and re-checked with `IsValid`. -/
def NewToken (value : String) (expiresAt : Nat) (scope : String) (now : Nat) :
    Except TokenError Token :=
  if value = "" then
    .error (.msg "token value cannot be empty")
  else
    let token : Token :=
      { value := value, expiresAt := expiresAt, scope := scope, createdAt := now }
    if ¬ IsValid token then
      .error .invalid
    else
      .ok token

/-- Go `strings.HasPrefix`, structurally over the character lists. -/
def charsPre : List Char → List Char → Bool
  | [], _ => true
  | _ :: _, [] => false
  | c :: cs, d :: ds => c == d && charsPre cs ds

/-- Go `strings.HasPrefix` on strings. -/
def strHasPre (p s : String) : Bool :=
  charsPre p.data s.data

/-- `DetectProvider` from detect.go: pure prefix classification. -/
def DetectProvider (tokenValue : String) : String :=
  if strHasPre "ghp_" tokenValue ∨ strHasPre "github_pat_" tokenValue then
    "GITHUB"
  else if strHasPre "glpat-" tokenValue then
    "GITLAB"
  else
    ""

end GoGitTools

namespace GoGitTools

/-- `FormatEnvKey` from env.go: upper-case the key, replace every
non-alphanumeric character by an underscore, and attach the fixed
"GIT_TOKEN_" env-var name head. -/
def formatEnvKey (key : String) : String :=
  "GIT_TOKEN_" ++
    key.toUpper.map (fun c =>
      if ('a' ≤ c ∧ c ≤ 'z') ∨ ('A' ≤ c ∧ c ≤ 'Z') ∨ ('0' ≤ c ∧ c ≤ '9') then c
      else '_')

/-- Contents of one `GIT_TOKEN_*` environment variable: either the JSON
encoding of a token (the flat four-field struct with PascalCase tags
round-trips all fields, so it is modelled by the token itself) or an
externally edited string that fails `json.Unmarshal`. An unset variable
(and a variable set to the empty string, which `Retrieve` treats the same
way) is the absence of an entry. -/
inductive EnvVal where
  | tok (t : Token)
  | malformed
  deriving Repr, DecidableEq

/-- `EnvStorage.Store` from env.go: reject invalid tokens with the
`ErrTokenInvalid` sentinel, else marshal and set the formatted variable. -/
def EnvStore (env : String → Option EnvVal) (key : String) (t : Token) :
    Except TokenError (String → Option EnvVal) :=
  if ¬ IsValid t then .error .invalid
  else .ok (fun k => if k = formatEnvKey key then some (.tok t) else env k)

/-- `EnvStorage.Retrieve` from env.go, in source order: empty/unset
variable fails `ErrTokenNotFound`; an unmarshal failure is its own wrapped
error; then `ErrTokenInvalid` if `!IsValid`; then `ErrTokenExpired` if the
expiry is set and `time.Now().After(ExpiresAt)`. -/
def EnvRetrieve (env : String → Option EnvVal) (now : Nat) (key : String) :
    Except TokenError Token :=
  match env (formatEnvKey key) with
  | none => .error .notFound
  | some .malformed => .error (.msg "failed to unmarshal token")
  | some (.tok t) =>
    if ¬ IsValid t then .error .invalid
    else if t.expiresAt ≠ 0 ∧ now > t.expiresAt then .error .expired
    else .ok t

/-- `EnvStorage.Delete` from env.go: unset the formatted variable. -/
def EnvDelete (env : String → Option EnvVal) (key : String) :
    String → Option EnvVal :=
  fun k => if k = formatEnvKey key then none else env k

/-- In-memory state of `MemoryStorage` from part_007: the mutex-guarded
`map[string]Token`, modelled as an association list without duplicate keys
(Go map assignment replaces). -/
abbrev MemState := List (String × Token)

/-- Go map lookup on the association-list model. -/
def memLookup : MemState → String → Option Token
  | [], _ => none
  | (k', t) :: rest, k => if k' = k then some t else memLookup rest k

/-- Go map assignment `m.tokens[key] = token` (replace, not stack). -/
def memInsert : MemState → String → Token → MemState
  | [], k, t => [(k, t)]
  | (k', t') :: rest, k, t =>
    if k' = k then (k, t) :: rest else (k', t') :: memInsert rest k t

/-- Go `delete(m.tokens, key)`. -/
def memErase (m : MemState) (k : String) : MemState :=
  m.filter (fun p => p.1 != k)

/-- `MemoryStorage.Store` from part_007: "Only check for empty value here,
allow expired tokens to be stored". -/
def MemStore (m : MemState) (key : String) (t : Token) :
    Except TokenError MemState :=
  if t.value = "" then .error .invalid else .ok (memInsert m key t)

/-- `MemoryStorage.Retrieve` from part_007: missing key fails
`ErrTokenNotFound`, an expired entry fails `ErrTokenExpired`, any other
entry is returned as-is (there is no validity check here). -/
def MemRetrieve (now : Nat) (m : MemState) (key : String) :
    Except TokenError Token :=
  match memLookup m key with
  | none => .error .notFound
  | some t => if IsExpired now t then .error .expired else .ok t

/-- States of `MemoryStorage` reachable through its public interface,
starting from `NewMemoryStorage` (`Delete` and `Close` never fail;
`Store` contributes only its success states). -/
inductive MemReach : MemState → Prop where
  | init : MemReach []
  | store {m m' : MemState} {k : String} {t : Token} :
      MemReach m → MemStore m k t = .ok m' → MemReach m'
  | delete {m : MemState} (k : String) : MemReach m → MemReach (memErase m k)
  | close {m : MemState} : MemReach m → MemReach []

/-- Every entry produced by `memInsert` with a valid token is valid when
the prior entries were. -/
theorem memInsert_allValid {m : MemState} {k : String} {t : Token}
    (hm : ∀ p ∈ m, IsValid p.2 = true) (ht : IsValid t = true) :
    ∀ p ∈ memInsert m k t, IsValid p.2 = true := by
  induction m with
  | nil =>
    intro p hp
    simp [memInsert] at hp
    simp [hp, ht]
  | cons hd tl ih =>
    intro p hp
    by_cases hk : hd.1 = k
    · simp [memInsert, hk] at hp
      rcases hp with hp | hp
      · simp [hp, ht]
      · exact hm p (by simp [hp])
    · simp [memInsert, hk] at hp
      rcases hp with hp | hp
      · exact hm p (by simp [hp])
      · exact ih (fun q hq => hm q (by simp [hq])) p hp

/-- Invariant of `MemoryStorage`: every token held in a reachable state is
valid, because `Store` refuses invalid tokens. -/
theorem memReach_allValid {m : MemState} (h : MemReach m) :
    ∀ p ∈ m, IsValid p.2 = true := by
  induction h with
  | init => intro p hp; cases hp
  | store hr hs ih =>
    rename_i m₀ m₁ k t
    intro p hp
    by_cases ht : t.value = ""
    · simp [MemStore, ht] at hs
    · simp [MemStore, ht] at hs
      subst hs
      exact memInsert_allValid ih (by simp [IsValid, ht]) p hp
  | delete k hr ih =>
    intro p hp
    exact ih p (List.mem_of_mem_filter hp)
  | close hr ih => intro p hp; cases hp

/-- C9 (corrected): the empty-value failure of `NewToken` is the ad-hoc
"token value cannot be empty" error, not the `ErrTokenInvalid` sentinel:
at the concrete input `("", 5, "repo")` with `now = 7` the constructor
fails, but not with the `TokenInvalid` error kind. -/
theorem newToken_empty_not_tokenInvalid :
    NewToken "" 5 "repo" 7 = .error (.msg "token value cannot be empty") ∧
    NewToken "" 5 "repo" 7 ≠ .error TokenError.invalid := by
  constructor
  · rfl
  · intro h
    simp [NewToken] at h

/-- C9 (amended): for every non-empty `value`, `NewToken` succeeds and the
returned token's `createdAt` is the call time `now` (hence lies between the
call's start and end whenever `start ≤ now ≤ finish`); for the empty value
it always fails, with the dedicated "token value cannot be empty" error
rather than the `ErrTokenInvalid` sentinel. -/
theorem newToken_spec (value : String) (expiresAt : Nat) (scope : String)
    (now start finish : Nat) (hs : start ≤ now) (hf : now ≤ finish) :
    (value ≠ "" →
      ∃ t, NewToken value expiresAt scope now = .ok t ∧
        t.value = value ∧ start ≤ t.createdAt ∧ t.createdAt ≤ finish) ∧
    (value = "" →
      NewToken value expiresAt scope now =
        .error (.msg "token value cannot be empty")) := by
  constructor
  · intro hv
    refine ⟨{ value := value, expiresAt := expiresAt, scope := scope, createdAt := now },
      ?_, rfl, hs, hf⟩
    simp [NewToken, IsValid, hv]
  · intro hv
    simp [NewToken, hv]

/-- Closed witness for `newToken_spec` at a concrete input. -/
theorem newToken_spec_witness :
    ∃ t, NewToken "ghp_abc" 9 "repo" 4 = .ok t ∧
      t.value = "ghp_abc" ∧ 3 ≤ t.createdAt ∧ t.createdAt ≤ 5 :=
  (newToken_spec "ghp_abc" 9 "repo" 4 3 5 (by decide) (by decide)).1 (by decide)

/-- C5: `Retrieve` returns the most specific error. Environment backend
(env.go): a missing entry fails `TokenNotFound`; an entry failing `IsValid`
fails `TokenInvalid` regardless of its expiry (invalid is checked before
expired); a valid entry with a set, past expiry fails `TokenExpired`.
Memory backend (part_007): a missing key fails `TokenNotFound` and an
expired entry fails `TokenExpired`; it has no validity check, but on every
state reachable through its interface all held tokens are valid (its
`Store` rejects invalid tokens), so the `TokenInvalid` clause is vacuous
there. -/
theorem retrieve_error_specificity :
    (∀ (env : String → Option EnvVal) now key,
        env (formatEnvKey key) = none →
        EnvRetrieve env now key = .error .notFound) ∧
    (∀ (env : String → Option EnvVal) now key t,
        env (formatEnvKey key) = some (.tok t) → IsValid t = false →
        EnvRetrieve env now key = .error .invalid) ∧
    (∀ (env : String → Option EnvVal) now key t,
        env (formatEnvKey key) = some (.tok t) → IsValid t = true →
        t.expiresAt ≠ 0 → t.expiresAt < now →
        EnvRetrieve env now key = .error .expired) ∧
    (∀ (m : MemState) now key,
        memLookup m key = none → MemRetrieve now m key = .error .notFound) ∧
    (∀ (m : MemState) now key t,
        memLookup m key = some t → IsExpired now t = true →
        MemRetrieve now m key = .error .expired) ∧
    (∀ m : MemState, MemReach m → ∀ p ∈ m, IsValid p.2 = true) := by
  refine ⟨?_, ?_, ?_, ?_, ?_, ?_⟩
  · intro env now key h
    simp [EnvRetrieve, h]
  · intro env now key t h hv
    simp [EnvRetrieve, h, hv]
  · intro env now key t h hv hz hlt
    simp [EnvRetrieve, h, hv, hz, hlt]
  · intro m now key h
    simp [MemRetrieve, h]
  · intro m now key t h he
    simp [MemRetrieve, h, he]
  · intro m hm
    exact memReach_allValid hm

/-- Closed witness for `retrieve_error_specificity`: a singleton
environment holding an invalid *and* expired token makes `Retrieve` report
`TokenInvalid` (the invalid-before-expired order), and the memory backend
reports `TokenNotFound` on the empty state. -/
theorem retrieve_error_specificity_witness :
    EnvRetrieve
      (fun k => if k = formatEnvKey "GITHUB" then
          some (.tok { value := "", expiresAt := 1, scope := "", createdAt := 0 })
        else none)
      5 "GITHUB" = .error .invalid ∧
    MemRetrieve 5 [] "GITHUB" = .error .notFound := by
  constructor
  · exact retrieve_error_specificity.2.1
      (fun k => if k = formatEnvKey "GITHUB" then
          some (.tok { value := "", expiresAt := 1, scope := "", createdAt := 0 })
        else none)
      5 "GITHUB" { value := "", expiresAt := 1, scope := "", createdAt := 0 }
      (by simp) (by simp [IsValid])
  · exact retrieve_error_specificity.2.2.2.1 [] 5 "GITHUB" rfl

/-- Read model of a rendered (display/logging) token serialization. -/
structure TokenJSON where
  value : String
  expiresAt : Nat
  scope : String
  createdAt : Nat
  deriving Repr, DecidableEq

/-- Modelled from the spec: the human-facing JSON marshaller of `Token`
(the redacting serializer exercised by `TestToken_JSONMarshaling` in
part_006) is not under src/ — only its test is. Per the spec, serialized
representations "must redact `value` as `"REDACTED"` when rendered for
display/logging" while the remaining fields round-trip. -/
def displayJSON (t : Token) : TokenJSON :=
  { value := "REDACTED", expiresAt := t.expiresAt, scope := t.scope,
    createdAt := t.createdAt }

/-- C3: the display/logging serialization of every token carries the
literal value "REDACTED" (while preserving the other fields), whereas the
environment storage layer round-trips the real secret: storing a valid
token and retrieving it (before its expiry) returns the original `Value`
unchanged — the persisted env-var JSON carries the real value. -/
theorem display_redacts_storage_preserves :
    (∀ t : Token, (displayJSON t).value = "REDACTED" ∧
      (displayJSON t).expiresAt = t.expiresAt ∧
      (displayJSON t).scope = t.scope) ∧
    (∀ (env : String → Option EnvVal) key t now, IsValid t = true →
      ¬ (t.expiresAt ≠ 0 ∧ now > t.expiresAt) →
      ∃ env', EnvStore env key t = .ok env' ∧
        EnvRetrieve env' now key = .ok t) := by
  constructor
  · intro t
    exact ⟨rfl, rfl, rfl⟩
  · intro env key t now hv hexp
    refine ⟨fun k => if k = formatEnvKey key then some (.tok t) else env k, ?_, ?_⟩
    · simp [EnvStore, hv]
    · simp [EnvRetrieve, hv, hexp]

/-- A concrete sample token used by closed witnesses. -/
def sampleTok : Token :=
  { value := "ghp_secret123", expiresAt := 90, scope := "repo", createdAt := 1 }

/-- Closed witness for `display_redacts_storage_preserves`: the secret
"ghp_secret123" survives an env-storage round trip while its display form
is redacted. -/
theorem display_redacts_storage_preserves_witness :
    (displayJSON sampleTok).value = "REDACTED" ∧
    ∃ env', EnvStore (fun _ => none) "GITHUB" sampleTok = .ok env' ∧
      EnvRetrieve env' 10 "GITHUB" = .ok sampleTok := by
  constructor
  · exact (display_redacts_storage_preserves.1 sampleTok).1
  · exact display_redacts_storage_preserves.2 (fun _ => none) "GITHUB"
      sampleTok 10 (by decide) (by decide)

/-- Result of `TokenValidator.validateScopes` (embedded github token.go
chunk in workflow_errors_test.go): either the ad-hoc "no scopes provided"
error or a `token.ScopeError` with its `Missing` list and `Status` map. -/
inductive ScopeValErr where
  | noScopes
  | scopeErr (missing : List String) (status : List (String × Bool))
  deriving Repr, DecidableEq

/-- `strings.Split(s, sep)` for a one-character separator, over the
character list. -/
def splitCharsAux (sep : Char) : List Char → List Char → List (List Char)
  | [], acc => [acc.reverse]
  | c :: cs, acc =>
    if c = sep then acc.reverse :: splitCharsAux sep cs []
    else splitCharsAux sep cs (c :: acc)

/-- `strings.Split(s, ",")`. -/
def splitOnComma (s : String) : List String :=
  (splitCharsAux ',' s.data []).map (fun l => String.mk l)

/-- `strings.TrimSpace`. -/
def trimSpace (s : String) : String :=
  String.mk
    (((s.data.dropWhile Char.isWhitespace).reverse.dropWhile
        Char.isWhitespace).reverse)

/-- `TokenValidator.validateScopes`: empty scope string is the distinct
"no scopes provided" failure; otherwise the string is split on commas
(`strings.Split(scope, ",")` — commas only), each entry trimmed, and the
required set checked. The Go `required` map is iterated in unspecified
order when collecting `Missing`/`Status`; the fixed order
`[repo, workflow]` used here is one admissible order. -/
def validateScopes (scope : String) : Except ScopeValErr Unit :=
  if scope = "" then .error .noScopes
  else
    let scopes := (splitOnComma scope).map trimSpace
    let repoFound := scopes.contains "repo"
    let workflowFound := scopes.contains "workflow"
    let missing :=
      (if repoFound then [] else ["repo"]) ++
        (if workflowFound then [] else ["workflow"])
    let status := [("repo", repoFound), ("workflow", workflowFound)]
    if missing = [] then .ok () else .error (.scopeErr missing status)

/-- C4 (code bug): `validateScopes` splits on commas only, so the
space-separated scope string "repo workflow admin:repo" — which the
package's own test `TestTokenValidator_ValidateScopes` expects to succeed —
is parsed as a single unknown scope and rejected with both required scopes
reported missing. The comma-separated behaviors claimed do hold: "repo"
fails with exactly ["workflow"] missing and a full status map,
"repo,workflow,extra" succeeds, and "" fails with the distinct
"no scopes provided" error. -/
theorem validateScopes_comma_only :
    validateScopes "repo workflow admin:repo" =
      .error (.scopeErr ["repo", "workflow"]
        [("repo", false), ("workflow", false)]) ∧
    validateScopes "repo" =
      .error (.scopeErr ["workflow"] [("repo", true), ("workflow", false)]) ∧
    validateScopes "repo,workflow,extra" = .ok () ∧
    validateScopes "" = .error .noScopes := by
  refine ⟨?_, ?_, ?_, ?_⟩ <;> rfl

/-- Minimal read model of an HTTP response as `Client.sendRequest`
(part_005) observes it: Go's `resp.StatusCode`, `resp.Status` text and the
body bytes. -/
structure HttpResponse where
  status : Nat
  statusText : String
  body : String
  deriving Repr, DecidableEq

/-- `Client.sendRequest` from part_005 (github client chunk): sets auth /
accept / user-agent headers, performs `c.httpClient.Do(req)` exactly once,
and fails on any status ≥ 400 with "GitHub API error: status: body". The
`server` list scripts the successive responses a server would give; the
returned `Nat` counts HTTP attempts actually made. There is no retry of
any kind in the source. -/
def sendRequest (server : List HttpResponse) : Except String HttpResponse × Nat :=
  match server with
  | [] => (.error "transport error", 0)
  | r :: _ =>
    if r.status ≥ 400 then
      (.error ("GitHub API error: " ++ r.statusText ++ ": " ++ r.body), 1)
    else
      (.ok r, 1)

/-- The rate-limited first response of `TestRateLimiting` (part_005). -/
def rateLimitedResp : HttpResponse :=
  { status := 403, statusText := "403 Forbidden", body := "API rate limit exceeded" }

/-- The successful second response of `TestRateLimiting` (part_005). -/
def successResp : HttpResponse :=
  { status := 200, statusText := "200 OK", body := "success" }

/-- C1 (code bug): against a server that rate-limits the first call and
succeeds on the second — the exact scenario of the package's own
`TestRateLimiting`, which demands the success payload after exactly two
requests — `sendRequest` makes exactly one request and returns the 403
error: the sender performs no rate-limit retry at all. -/
theorem sendRequest_no_rate_limit_retry :
    sendRequest [rateLimitedResp, successResp] =
      (.error "GitHub API error: 403 Forbidden: API rate limit exceeded", 1) :=
  rfl

/-- Error model of `internal/urlutils` (part_010): the package sentinels
relevant to `FormatTokenURL`; `invalidURL detail` stands for
`fmt.Errorf("%w: ...", ErrInvalidURL)`, which `errors.Is`-matches
`ErrInvalidURL`. -/
inductive UrlError where
  | invalidURL (detail : String)
  | emptyToken
  deriving Repr, DecidableEq

/-- `net/url.URL` as `FormatTokenURL` touches it: the userinfo component
(`User *url.Userinfo`, `none` = no credentials) plus the components the
function leaves untouched. -/
structure URL where
  scheme : String
  user : Option String
  host : String
  path : String
  deriving Repr, DecidableEq

/-- `FormatTokenURL` from part_010 (urlutils chunk): nil URL fails with an
`ErrInvalidURL`-wrapped error; empty token fails with `ErrEmptyToken`;
otherwise the URL struct is copied (`tokenURL := *parsedURL`, so the
caller's value is never written to), any existing credentials are cleared
(`tokenURL.User = nil`) and the token installed as the sole userinfo. -/
def FormatTokenURL (parsedURL : Option URL) (token : String) :
    Except UrlError URL :=
  match parsedURL with
  | none => .error (.invalidURL "nil URL provided")
  | some u =>
    if token = "" then .error .emptyToken
    else
      let tokenURL : URL := { u with user := none }
      .ok { tokenURL with user := some token }

/-- C10: for every parsed URL and non-empty token, `FormatTokenURL`
returns a new URL whose userinfo is exactly the token — prior credentials
are discarded, never combined (the result does not depend on the input's
userinfo) — with every other component preserved; the input value itself
is left unmodified (the function copies the struct; in this pure embedding
the argument `u` is untouched by construction, and the equations below
speak only of the returned copy). A nil URL fails with `ErrInvalidURL` and
an empty token with `ErrEmptyToken`. -/
theorem formatTokenURL_spec (u : URL) (token : String) (h : token ≠ "") :
    FormatTokenURL (some u) token =
      .ok { scheme := u.scheme, user := some token, host := u.host, path := u.path } ∧
    (∀ creds : Option String,
      FormatTokenURL (some { u with user := creds }) token =
        FormatTokenURL (some { u with user := none }) token) ∧
    FormatTokenURL none token = .error (.invalidURL "nil URL provided") ∧
    FormatTokenURL (some u) "" = .error .emptyToken := by
  refine ⟨?_, ?_, rfl, ?_⟩
  · simp [FormatTokenURL, h]
  · intro creds
    simp [FormatTokenURL, h]
  · simp [FormatTokenURL]

/-- Monitor lifecycle state of a `TokenManager` (refresh.go): the
`monitors map[string]context.CancelFunc` is modelled as an association
list from key to a cancellation-handle id; `cancelled` records the ids
whose `CancelFunc` has been invoked; `nextId` supplies the fresh handle
that `context.WithCancel` returns. -/
structure MonState where
  monitors : List (String × Nat)
  cancelled : List Nat
  nextId : Nat
  deriving Repr, DecidableEq

/-- Lookup in the `monitors` map. -/
def monLookup : List (String × Nat) → String → Option Nat
  | [], _ => none
  | (k', c) :: rest, k => if k' = k then some c else monLookup rest k

/-- Go map assignment `tm.monitors[key] = cancel` (replace, not stack). -/
def monInsert : List (String × Nat) → String → Nat → List (String × Nat)
  | [], k, c => [(k, c)]
  | (k', c') :: rest, k, c =>
    if k' = k then (k, c) :: rest else (k', c') :: monInsert rest k c

/-- Go `delete(tm.monitors, key)`. -/
def monErase (m : List (String × Nat)) (k : String) : List (String × Nat) :=
  m.filter (fun p => p.1 != k)

/-- `TokenManager.StartMonitoring` (refresh.go): under the mutex, cancel
any existing monitor for the key, then store a fresh cancellation handle
for the new monitor. -/
def StartMonitoring (s : MonState) (key : String) : MonState :=
  let cancelled' :=
    match monLookup s.monitors key with
    | some c => c :: s.cancelled
    | none => s.cancelled
  { monitors := monInsert s.monitors key s.nextId
    cancelled := cancelled'
    nextId := s.nextId + 1 }

/-- `TokenManager.StopMonitoring` (refresh.go): under the mutex, if a
monitor exists for the key, cancel it and delete its map entry; otherwise
do nothing. -/
def StopMonitoring (s : MonState) (key : String) : MonState :=
  match monLookup s.monitors key with
  | some c =>
    { monitors := monErase s.monitors key
      cancelled := c :: s.cancelled
      nextId := s.nextId }
  | none => s

/-- The monitor-map states reachable through `NewTokenManager` /
`StartMonitoring` / `StopMonitoring`. -/
inductive MonReach : MonState → Prop where
  | init : MonReach { monitors := [], cancelled := [], nextId := 0 }
  | start {s : MonState} (key : String) : MonReach s → MonReach (StartMonitoring s key)
  | stop {s : MonState} (key : String) : MonReach s → MonReach (StopMonitoring s key)

/-- Events of one `TokenManager` method call, as ordered in the source:
acquiring/releasing `tm.mu` and touching the `monitors` map. -/
inductive MonEv where
  | lock
  | unlock
  | mapAccess
  | cancelCall
  deriving Repr, DecidableEq

/-- Event trace of `StartMonitoring` (refresh.go lines 160-177):
`tm.mu.Lock()`; read `tm.monitors[key]`; cancel it when present; write
`tm.monitors[key]`; deferred `tm.mu.Unlock()`. -/
def startTrace (hasExisting : Bool) : List MonEv :=
  [.lock, .mapAccess] ++ (if hasExisting then [.cancelCall] else []) ++
    [.mapAccess, .unlock]

/-- Event trace of `StopMonitoring` (refresh.go lines 180-188):
`tm.mu.Lock()`; read `tm.monitors[key]`; when present cancel and
`delete(tm.monitors, key)`; deferred `tm.mu.Unlock()`. -/
def stopTrace (hasExisting : Bool) : List MonEv :=
  [.lock, .mapAccess] ++
    (if hasExisting then [.cancelCall, .mapAccess] else []) ++ [.unlock]

/-- A trace accesses the map only while the mutex is held (depth > 0). -/
def guardedFrom : Nat → List MonEv → Bool
  | _, [] => true
  | d, .lock :: es => guardedFrom (d + 1) es
  | d, .unlock :: es => guardedFrom (d - 1) es
  | d, .mapAccess :: es => decide (0 < d) && guardedFrom d es
  | d, .cancelCall :: es => guardedFrom d es

/-- Number of entries the monitor map holds for one key. -/
def keyCount (m : List (String × Nat)) (k : String) : Nat :=
  (m.filter (fun p => p.1 == k)).length

theorem monLookup_insert_self (m : List (String × Nat)) (k : String) (c : Nat) :
    monLookup (monInsert m k c) k = some c := by
  induction m with
  | nil => simp [monInsert, monLookup]
  | cons hd tl ih =>
    by_cases hk : hd.1 = k
    · simp [monInsert, hk, monLookup]
    · simp [monInsert, hk, monLookup, ih]

theorem monLookup_insert_other (m : List (String × Nat)) (k k' : String)
    (c : Nat) (h : k' ≠ k) :
    monLookup (monInsert m k c) k' = monLookup m k' := by
  have h' : ¬ (k = k') := fun hh => h hh.symm
  induction m with
  | nil => simp [monInsert, monLookup, h']
  | cons hd tl ih =>
    by_cases hk : hd.1 = k
    · simp [monInsert, hk, monLookup, h']
    · simp only [monInsert, hk, if_false, monLookup]
      by_cases hk' : hd.1 = k'
      · simp [hk']
      · simp [hk', ih]

theorem monLookup_erase_self (m : List (String × Nat)) (k : String) :
    monLookup (monErase m k) k = none := by
  induction m with
  | nil => simp [monErase, monLookup]
  | cons hd tl ih =>
    by_cases hk : hd.1 = k
    · simpa [monErase, hk] using ih
    · simpa [monErase, hk, monLookup] using ih

theorem keyCount_nil (k : String) : keyCount [] k = 0 := rfl

theorem keyCount_cons (x : String × Nat) (l : List (String × Nat)) (k : String) :
    keyCount (x :: l) k =
      if x.1 = k then keyCount l k + 1 else keyCount l k := by
  by_cases h : x.1 = k
  · simp [keyCount, List.filter_cons, h]
  · simp [keyCount, List.filter_cons, h]

theorem monInsert_cons_eq (hd : String × Nat) (tl : List (String × Nat))
    (k : String) (c : Nat) (h : hd.1 = k) :
    monInsert (hd :: tl) k c = (k, c) :: tl := by
  cases hd
  simp_all [monInsert]

theorem monInsert_cons_ne (hd : String × Nat) (tl : List (String × Nat))
    (k : String) (c : Nat) (h : ¬ hd.1 = k) :
    monInsert (hd :: tl) k c = hd :: monInsert tl k c := by
  cases hd
  simp_all [monInsert]

theorem monErase_cons_eq (hd : String × Nat) (tl : List (String × Nat))
    (k : String) (h : hd.1 = k) :
    monErase (hd :: tl) k = monErase tl k := by
  simp [monErase, List.filter_cons, h]

theorem monErase_cons_ne (hd : String × Nat) (tl : List (String × Nat))
    (k : String) (h : ¬ hd.1 = k) :
    monErase (hd :: tl) k = hd :: monErase tl k := by
  simp [monErase, List.filter_cons, h]

theorem keyCount_insert_other (m : List (String × Nat)) (k k' : String)
    (c : Nat) (h : k' ≠ k) :
    keyCount (monInsert m k c) k' = keyCount m k' := by
  have h' : ¬ (k = k') := fun hh => h hh.symm
  induction m with
  | nil => simp [monInsert, keyCount_cons, keyCount_nil, h']
  | cons hd tl ih =>
    by_cases hk : hd.1 = k
    · rw [monInsert_cons_eq hd tl k c hk, keyCount_cons, keyCount_cons]
      simp [h', hk]
    · rw [monInsert_cons_ne hd tl k c hk, keyCount_cons, keyCount_cons, ih]

theorem keyCount_insert_le_one (m : List (String × Nat)) (k k' : String)
    (c : Nat) (h : keyCount m k' ≤ 1) :
    keyCount (monInsert m k c) k' ≤ 1 := by
  by_cases hkk : k' = k
  · subst hkk
    induction m with
    | nil => simp [monInsert, keyCount_cons, keyCount_nil]
    | cons hd tl ih =>
      by_cases hk : hd.1 = k'
      · rw [monInsert_cons_eq hd tl k' c hk, keyCount_cons]
        rw [keyCount_cons, hk] at h
        simpa using h
      · rw [monInsert_cons_ne hd tl k' c hk, keyCount_cons, if_neg hk]
        rw [keyCount_cons, if_neg hk] at h
        exact ih h
  · rw [keyCount_insert_other m k k' c hkk]
    exact h

theorem keyCount_erase_le (m : List (String × Nat)) (k k' : String) :
    keyCount (monErase m k) k' ≤ keyCount m k' := by
  induction m with
  | nil => simp [monErase, keyCount_nil]
  | cons hd tl ih =>
    by_cases hk : hd.1 = k
    · rw [monErase_cons_eq hd tl k hk, keyCount_cons]
      split <;> omega
    · rw [monErase_cons_ne hd tl k hk, keyCount_cons, keyCount_cons]
      split <;> omega

/-- At most one monitor per key in every reachable state. -/
theorem monReach_keyCount {s : MonState} (h : MonReach s) :
    ∀ k, keyCount s.monitors k ≤ 1 := by
  induction h with
  | init => intro k; simp [keyCount]
  | start key hr ih =>
    intro k
    exact keyCount_insert_le_one _ key k _ (ih k)
  | stop key hr ih =>
    rename_i s₀
    intro k
    unfold StopMonitoring
    cases hc : monLookup s₀.monitors key with
    | none => simpa [hc] using ih k
    | some c =>
      simp only [hc]
      exact le_trans (keyCount_erase_le s₀.monitors key k) (ih k)

/-- C6: a `TokenManager` keeps at most one monitor per key.
`StartMonitoring` on a key with a live monitor cancels the old handle and
replaces the map entry with the fresh one (replace, not stack — entries
for other keys are untouched); `StopMonitoring` cancels the handle and
removes the key's entry; key uniqueness is an invariant of all reachable
states; and in both methods' event traces every access to the monitor map
happens strictly between `tm.mu.Lock()` and `tm.mu.Unlock()`. -/
theorem monitor_lifecycle (s : MonState) (key : String) :
    (monLookup (StartMonitoring s key).monitors key = some s.nextId) ∧
    (∀ c, monLookup s.monitors key = some c →
      c ∈ (StartMonitoring s key).cancelled) ∧
    (∀ k, k ≠ key →
      monLookup (StartMonitoring s key).monitors k = monLookup s.monitors k) ∧
    (monLookup (StopMonitoring s key).monitors key = none) ∧
    (∀ c, monLookup s.monitors key = some c →
      c ∈ (StopMonitoring s key).cancelled) ∧
    (MonReach s → ∀ k, keyCount s.monitors k ≤ 1) ∧
    (∀ b, guardedFrom 0 (startTrace b) = true ∧
      guardedFrom 0 (stopTrace b) = true) := by
  refine ⟨?_, ?_, ?_, ?_, ?_, ?_, ?_⟩
  · exact monLookup_insert_self s.monitors key s.nextId
  · intro c hc
    simp [StartMonitoring, hc]
  · intro k hk
    simp only [StartMonitoring]
    exact monLookup_insert_other s.monitors key k s.nextId hk
  · unfold StopMonitoring
    cases hc : monLookup s.monitors key with
    | none => simp [hc]
    | some c => simpa using monLookup_erase_self s.monitors key
  · intro c hc
    simp [StopMonitoring, hc]
  · exact monReach_keyCount
  · intro b
    cases b <;> exact ⟨rfl, rfl⟩

/-- Closed witness for `monitor_lifecycle`: starting twice on "GITHUB"
cancels handle 0, leaves exactly handle 1 registered, and a stop removes
it. -/
theorem monitor_lifecycle_witness :
    monLookup (StartMonitoring (StartMonitoring
        { monitors := [], cancelled := [], nextId := 0 } "GITHUB")
        "GITHUB").monitors "GITHUB" = some 1 ∧
    (0 : Nat) ∈ (StartMonitoring (StartMonitoring
        { monitors := [], cancelled := [], nextId := 0 } "GITHUB")
        "GITHUB").cancelled := by
  constructor
  · exact (monitor_lifecycle
      (StartMonitoring { monitors := [], cancelled := [], nextId := 0 } "GITHUB")
      "GITHUB").1
  · exact (monitor_lifecycle
      (StartMonitoring { monitors := [], cancelled := [], nextId := 0 } "GITHUB")
      "GITHUB").2.1 0 rfl

/-- The tuning fields of `RefreshConfig` (refresh.go) that
`RefreshToken` reads; durations in abstract time units. -/
structure RefreshConfig where
  retryAttempts : Nat
  retryDelay : Nat
  refreshTimeout : Nat
  deriving Repr, DecidableEq

/-- Observable outcome of one `RefreshToken` call: its returned error (or
success), how many times the `RefreshHandler` was invoked, and how many
`RetryDelay` sleeps were taken. -/
structure RefreshOutcome where
  result : Except String Unit
  handlerCalls : Nat
  sleeps : Nat
  deriving Repr

/-- The retry loop of `TokenManager.RefreshToken` (refresh.go lines
115-141) plus the post-loop validate/store steps. `fuel` counts the
remaining iterations of `for attempt := 0; attempt <= RetryAttempts;
attempt++`; `handler k` / `dur k` give the k-th handler invocation's
result and duration (each sub-attempt runs under a context bounded by a
fraction of the budget; the handler's observable result already reflects
that); `elapsed` is wall time since `RefreshToken` started, so the outer
`refreshCtx` is done exactly when `refreshTimeout ≤ elapsed`. Before every
attempt but the first, the `select` either observes the deadline (it fires
during the `RetryDelay` sleep when `refreshTimeout ≤ elapsed +
retryDelay`) and fails with the timed-out error, or completes the sleep;
after a failed attempt, a done outer context fails with the
cancellation error; otherwise the loop continues. The exhausted-retries
message interpolates `RetryAttempts` (`%d` is `tm.config.RetryAttempts`),
not the number of invocations. -/
def refreshLoop (cfg : RefreshConfig) (handler : Nat → Except String Token)
    (dur : Nat → Nat) (storeRes : Except TokenError Unit) :
    Nat → Nat → Nat → Nat → Nat → Option String → RefreshOutcome
  | 0, _attempt, _elapsed, calls, sleeps, lastErr =>
    { result := .error ("token refresh failed after " ++
        toString cfg.retryAttempts ++ " attempts: " ++ lastErr.getD "")
      handlerCalls := calls
      sleeps := sleeps }
  | fuel + 1, attempt, elapsed, calls, sleeps, _lastErr =>
    if 0 < attempt ∧ cfg.refreshTimeout ≤ elapsed + cfg.retryDelay then
      { result := .error "refresh operation timed out: context deadline exceeded"
        handlerCalls := calls
        sleeps := sleeps }
    else
      let elapsed1 := if 0 < attempt then elapsed + cfg.retryDelay else elapsed
      let sleeps1 := if 0 < attempt then sleeps + 1 else sleeps
      let elapsed2 := elapsed1 + dur attempt
      match handler attempt with
      | .ok newToken =>
        if ¬ IsValid newToken then
          { result := .error "refreshed token is invalid: token is invalid"
            handlerCalls := calls + 1
            sleeps := sleeps1 }
        else
          match storeRes with
          | .error _ =>
            { result := .error "failed to store refreshed token"
              handlerCalls := calls + 1
              sleeps := sleeps1 }
          | .ok _ =>
            { result := .ok ()
              handlerCalls := calls + 1
              sleeps := sleeps1 }
      | .error e =>
        if cfg.refreshTimeout ≤ elapsed2 then
          { result := .error "refresh operation cancelled: context deadline exceeded"
            handlerCalls := calls + 1
            sleeps := sleeps1 }
        else
          refreshLoop cfg handler dur storeRes fuel (attempt + 1) elapsed2
            (calls + 1) sleeps1 (some e)

/-- `TokenManager.RefreshToken` (refresh.go): retrieve the current token
(failure is wrapped and returned with no handler call), then run the
bounded retry loop. -/
def RefreshTokenM (cfg : RefreshConfig) (retrieveRes : Except TokenError Token)
    (handler : Nat → Except String Token) (dur : Nat → Nat)
    (storeRes : Except TokenError Unit) : RefreshOutcome :=
  match retrieveRes with
  | .error _ =>
    { result := .error "failed to retrieve token for refresh"
      handlerCalls := 0
      sleeps := 0 }
  | .ok _ => refreshLoop cfg handler dur storeRes (cfg.retryAttempts + 1) 0 0 0 0 none

theorem refreshLoop_all_fail (cfg : RefreshConfig)
    (handler : Nat → Except String Token) (dur : Nat → Nat)
    (storeRes : Except TokenError Unit) (m : String)
    (hfail : ∀ k, handler k = .error m) (hdur : ∀ k, dur k = 0)
    (hbound : cfg.retryAttempts * cfg.retryDelay < cfg.refreshTimeout) :
    ∀ fuel attempt calls sleeps lastErr,
      attempt + fuel = cfg.retryAttempts + 1 →
      (0 < attempt → lastErr = some m) →
      refreshLoop cfg handler dur storeRes fuel attempt
          ((attempt - 1) * cfg.retryDelay) calls sleeps lastErr =
        { result := .error ("token refresh failed after " ++
            toString cfg.retryAttempts ++ " attempts: " ++ m)
          handlerCalls := calls + fuel
          sleeps := sleeps + fuel - (if attempt = 0 then 1 else 0) } := by
  intro fuel
  induction fuel with
  | zero =>
    intro attempt calls sleeps lastErr ha hl
    have h0 : 0 < attempt := by omega
    have hne : attempt ≠ 0 := by omega
    rw [hl h0]
    simp [refreshLoop, hne]
  | succ fuel ih =>
    intro attempt calls sleeps lastErr ha hl
    have hA : attempt ≤ cfg.retryAttempts := by omega
    have hmul : attempt * cfg.retryDelay ≤ cfg.retryAttempts * cfg.retryDelay :=
      Nat.mul_le_mul_right _ hA
    by_cases h0 : attempt = 0
    · subst h0
      have he : ((0 : Nat) - 1) * cfg.retryDelay = 0 := by simp
      rw [he]
      simp only [refreshLoop]
      rw [if_neg (show ¬ ((0 : Nat) < 0 ∧
        cfg.refreshTimeout ≤ 0 + cfg.retryDelay) from by omega)]
      have hnp : ¬ (0 : Nat) < 0 := by omega
      simp only [if_neg hnp, hfail 0, hdur 0]
      rw [if_neg (show ¬ cfg.refreshTimeout ≤ 0 + 0 from by omega)]
      have h1 := ih 1 (calls + 1) sleeps (some m) (by omega) (fun _ => rfl)
      simp only [Nat.sub_self, Nat.zero_mul] at h1
      simp only [Nat.add_zero]
      rw [h1]
      congr 1
      omega
    · have hpos : 0 < attempt := Nat.pos_of_ne_zero h0
      have hstep : (attempt - 1) * cfg.retryDelay + cfg.retryDelay =
          attempt * cfg.retryDelay := by
        cases attempt with
        | zero => omega
        | succ n => simp [Nat.succ_mul]
      have hcond : ¬ (0 < attempt ∧
          cfg.refreshTimeout ≤ (attempt - 1) * cfg.retryDelay + cfg.retryDelay) := by
        rw [hstep]
        omega
      simp only [refreshLoop]
      rw [if_neg hcond]
      simp only [if_pos hpos, hfail attempt, hdur attempt]
      rw [Nat.add_zero, hstep]
      rw [if_neg (show ¬ cfg.refreshTimeout ≤ attempt * cfg.retryDelay from
        by omega)]
      have h1 := ih (attempt + 1) (calls + 1) (sleeps + 1) (some m) (by omega)
        (fun _ => rfl)
      simp only [Nat.add_sub_cancel] at h1
      rw [h1]
      congr 1 <;> first
        | omega
        | (simp [h0]; omega)

/-- C2 (amended): a `RefreshHandler` that fails on every call makes
`RefreshToken` on a retrievable token invoke the handler exactly
`RetryAttempts + 1` times, with a `RetryDelay` sleep before every attempt
but the first (`RetryAttempts` sleeps in total), provided the overall
`RefreshTimeout` does not elapse first, and then fail with the message
"token refresh failed after RetryAttempts attempts: cause" — the count it
names is `RetryAttempts`, not the total invocation count. -/
theorem refreshToken_retry_exhausted (cfg : RefreshConfig) (cur : Token)
    (handler : Nat → Except String Token) (dur : Nat → Nat)
    (storeRes : Except TokenError Unit) (m : String)
    (hfail : ∀ k, handler k = .error m) (hdur : ∀ k, dur k = 0)
    (hbound : cfg.retryAttempts * cfg.retryDelay < cfg.refreshTimeout) :
    RefreshTokenM cfg (.ok cur) handler dur storeRes =
      { result := .error ("token refresh failed after " ++
          toString cfg.retryAttempts ++ " attempts: " ++ m)
        handlerCalls := cfg.retryAttempts + 1
        sleeps := cfg.retryAttempts } := by
  unfold RefreshTokenM
  have := refreshLoop_all_fail cfg handler dur storeRes m hfail hdur hbound
    (cfg.retryAttempts + 1) 0 0 0 none (by omega) (by omega)
  simp only [Nat.zero_sub, Nat.zero_mul] at this
  rw [this]
  simp

/-- Closed witness for `refreshToken_retry_exhausted` at the test
configuration (`RetryAttempts = 2`). -/
theorem refreshToken_retry_exhausted_witness :
    RefreshTokenM { retryAttempts := 2, retryDelay := 1, refreshTimeout := 100 }
      (.ok sampleTok) (fun _ => .error "refresh failed") (fun _ => 0) (.ok ()) =
      { result := .error "token refresh failed after 2 attempts: refresh failed"
        handlerCalls := 3
        sleeps := 2 } := by
  have := refreshToken_retry_exhausted
    { retryAttempts := 2, retryDelay := 1, refreshTimeout := 100 }
    sampleTok (fun _ => .error "refresh failed") (fun _ => 0) (.ok ())
    "refresh failed" (fun _ => rfl) (fun _ => rfl) (by decide)
  simpa using this

/-- C2 (counterexample to the claim as stated): with `RetryAttempts = 2`
the handler is invoked 3 times in total, yet the failure message is
"token refresh failed after 2 attempts: refresh failed" — it names the
configured `RetryAttempts`, and contains no digit naming the total
invocation count 3. -/
theorem refreshToken_message_not_total_count :
    (RefreshTokenM { retryAttempts := 2, retryDelay := 1, refreshTimeout := 100 }
        (.ok sampleTok) (fun _ => .error "refresh failed") (fun _ => 0)
        (.ok ())).handlerCalls = 3 ∧
    (RefreshTokenM { retryAttempts := 2, retryDelay := 1, refreshTimeout := 100 }
        (.ok sampleTok) (fun _ => .error "refresh failed") (fun _ => 0)
        (.ok ())).result =
      .error "token refresh failed after 2 attempts: refresh failed" ∧
    ("token refresh failed after 2 attempts: refresh failed".data.contains '3') =
      false := by
  refine ⟨rfl, rfl, by decide⟩

/-- Closed witness for `formatTokenURL_spec`: embedding a token into
https://github.com/owner/repo that already carries stale credentials
replaces them outright. -/
theorem formatTokenURL_spec_witness :
    FormatTokenURL
      (some { scheme := "https", user := some "olduser", host := "github.com",
              path := "/owner/repo" }) "ghp_tok" =
      .ok { scheme := "https", user := some "ghp_tok", host := "github.com",
            path := "/owner/repo" } :=
  (formatTokenURL_spec
    { scheme := "https", user := some "olduser", host := "github.com",
      path := "/owner/repo" } "ghp_tok" (by decide)).1

/-- Go `strings.Contains`, structurally: does `pat` occur in `text`? -/
def containsSub (pat : List Char) : List Char → Bool
  | [] => pat.isEmpty
  | c :: rest => charsPre pat (c :: rest) || containsSub pat rest

/-- Go `strings.Contains` on strings. -/
def strContains (s sub : String) : Bool :=
  containsSub sub.data s.data

/-- `maxRetries` constant of part_012. -/
def maxRetries : Nat := 3

/-- The fixed base delay of part_012's retry wait, in seconds
(`time.Duration(i+1) * 5 * time.Second`). -/
def retryBaseDelay : Nat := 5

/-- The retryable-failure classification of `runGitCommand` (part_012):
the error text contains "HTTP 429", "rate limit" or
"Authentication failed". -/
def isRetryableGitFailure (e : String) : Bool :=
  strContains e "HTTP 429" || strContains e "rate limit" ||
    strContains e "Authentication failed"

/-- Observable outcome of one `runGitCommand` call: result, number of
subprocess attempts, and the sequence of retry waits (in seconds). -/
structure GitRunOutcome where
  result : Except String Unit
  attempts : Nat
  waits : List Nat
  deriving Repr

/-- The retry loop of `runGitCommand` (part_012 lines 212-240): up to
`maxRetries` runs of the subprocess (`runs i` is the failure text of the
i-th run, `none` = success); only retryable failures are retried, after a
wait of `(i+1) * 5` seconds that is abandoned with a timed-out error if
the context fires during it (`ctxDone i`); any other failure returns at
once wrapped with the operation name; exhausting the loop returns
"git-command: exceeded retry attempts: lastErr" — without a numeric
count. -/
def gitRetryLoop (runs : Nat → Option String) (ctxDone : Nat → Bool) :
    Nat → Nat → Option String → List Nat → GitRunOutcome
  | 0, i, lastErr, waits =>
    { result := .error ("git-command: exceeded retry attempts: " ++
        lastErr.getD "")
      attempts := i
      waits := waits }
  | fuel + 1, i, _lastErr, waits =>
    match runs i with
    | none => { result := .ok (), attempts := i + 1, waits := waits }
    | some e =>
      if isRetryableGitFailure e then
        if ctxDone i then
          { result := .error
              "git-command: operation timed out: context deadline exceeded"
            attempts := i + 1
            waits := waits }
        else
          gitRetryLoop runs ctxDone fuel (i + 1) (some e)
            (waits ++ [(i + 1) * retryBaseDelay])
      else
        { result := .error ("git-command: git command failed: " ++ e)
          attempts := i + 1
          waits := waits }

/-- `runGitCommand`'s retry behavior entry point (part_012). -/
def runGitCommandM (runs : Nat → Option String) (ctxDone : Nat → Bool) :
    GitRunOutcome :=
  gitRetryLoop runs ctxDone maxRetries 0 none []

/-- C8 (amended): the git retry loop retries only on "HTTP 429" /
"rate limit" / "Authentication failed" failure text, waiting
attempt-index × 5s (linearly increasing) before each retry and aborting
the wait with a timed-out error if the context fires; any other failure is
returned immediately wrapped with the operation name; exhausting all
`maxRetries` attempts returns "git-command: exceeded retry attempts"
naming the last underlying failure (but not the numeric retry count). -/
theorem gitRetry_policy (runs : Nat → Option String) (ctxDone : Nat → Bool)
    (e : String) :
    (runs 0 = some e → isRetryableGitFailure e = false →
      runGitCommandM runs ctxDone =
        { result := .error ("git-command: git command failed: " ++ e)
          attempts := 1
          waits := [] }) ∧
    ((∀ i, runs i = some e) → isRetryableGitFailure e = true →
      (∀ i, ctxDone i = false) →
      runGitCommandM runs ctxDone =
        { result := .error ("git-command: exceeded retry attempts: " ++ e)
          attempts := 3
          waits := [1 * retryBaseDelay, 2 * retryBaseDelay, 3 * retryBaseDelay] }) ∧
    (runs 0 = some e → isRetryableGitFailure e = true → ctxDone 0 = true →
      runGitCommandM runs ctxDone =
        { result := .error
            "git-command: operation timed out: context deadline exceeded"
          attempts := 1
          waits := [] }) := by
  refine ⟨?_, ?_, ?_⟩
  · intro h0 hret
    simp [runGitCommandM, maxRetries, gitRetryLoop, h0, hret]
  · intro hall hret hdone
    simp [runGitCommandM, maxRetries, gitRetryLoop, hall 0, hall 1, hall 2,
      hret, hdone 0, hdone 1, hdone 2, retryBaseDelay]
  · intro h0 hret hdone
    simp [runGitCommandM, maxRetries, gitRetryLoop, h0, hret, hdone]

/-- Closed witness for `gitRetry_policy`: three runs failing with
"remote: rate limit exceeded" under a live context exhaust the loop with
waits 5s, 10s, 15s. -/
theorem gitRetry_policy_witness :
    runGitCommandM (fun _ => some "remote: rate limit exceeded")
        (fun _ => false) =
      { result := .error
          "git-command: exceeded retry attempts: remote: rate limit exceeded"
        attempts := 3
        waits := [5, 10, 15] } := by
  have := (gitRetry_policy (fun _ => some "remote: rate limit exceeded")
    (fun _ => false) "remote: rate limit exceeded").2.1
    (fun _ => rfl) (by decide) (fun _ => rfl)
  simpa [retryBaseDelay] using this

/-- C8 (counterexample to the claim as stated): exhausting all retries on
"remote: rate limit exceeded" produces the message
"git-command: exceeded retry attempts: remote: rate limit exceeded",
which contains no digit at all — it does not name the retry count. -/
theorem gitRetry_exhausted_message_no_count :
    (runGitCommandM (fun _ => some "remote: rate limit exceeded")
        (fun _ => false)).result =
      .error "git-command: exceeded retry attempts: remote: rate limit exceeded" ∧
    (runGitCommandM (fun _ => some "remote: rate limit exceeded")
        (fun _ => false)).attempts = 3 ∧
    ("git-command: exceeded retry attempts: remote: rate limit exceeded".data.all
      (fun c => !c.isDigit)) = true := by
  refine ⟨rfl, rfl, by decide⟩

/-- The fields of `git.CloneOptions` (part_012) that drive control flow;
the `Progress` tracker only reports and is omitted; a nil `Context` is
replaced by a default-timeout context, so the context is modelled by
whether it is already cancelled/expired. -/
structure CloneOptions where
  sourceURL : String
  targetURL : String
  workingDir : String
  token : String
  ctxCancelled : Bool

/-- Observable outcome of `CloneRepository`: its result and the git
commands issued, as (directory, argument-list) pairs in order. -/
structure CloneOutcome where
  result : Except String Unit
  commands : List (String × List String)
  deriving Repr

/-- `CloneRepository` from part_012, in source order: empty source URL,
already-done context, SSH-style (`git@`) source, source URL validation
(skipped for `file://`, delegated to `urlutils.ValidateURL` as the
collaborator `validateURL`); then the direct-clone mode when a working
directory is given; otherwise a missing target URL is the configuration
error; otherwise the mirror workflow (clone into a self-cleaning temp
directory, SSH/validity check of the target, add the target as a second
remote, push all branches). `run dir token args` is the
`runGitCommand` collaborator; `tempDir` the `os.MkdirTemp` result. -/
def CloneRepository (opts : CloneOptions)
    (validateURL : String → Except String Unit)
    (run : String → String → List String → Except String Unit)
    (tempDir : String) : CloneOutcome :=
  if opts.sourceURL = "" then
    { result := .error "clone: source URL must be specified", commands := [] }
  else if opts.ctxCancelled then
    { result := .error "clone: operation cancelled: context canceled"
      commands := [] }
  else if strHasPre "git@" opts.sourceURL then
    { result := .error "clone: SSH URLs are not supported, please use HTTPS"
      commands := [] }
  else
    match (if strHasPre "file://" opts.sourceURL then Except.ok ()
      else validateURL opts.sourceURL) with
    | .error e =>
      { result := .error ("clone: invalid source URL: " ++ e), commands := [] }
    | .ok _ =>
      if opts.workingDir ≠ "" then
        match run "" opts.token ["clone", opts.sourceURL, opts.workingDir] with
        | .error e =>
          { result := .error ("clone: failed to clone source repository: " ++ e)
            commands := [("", ["clone", opts.sourceURL, opts.workingDir])] }
        | .ok _ =>
          { result := .ok ()
            commands := [("", ["clone", opts.sourceURL, opts.workingDir])] }
      else if opts.targetURL = "" then
        { result := .error
            "clone: either working directory or target URL must be specified"
          commands := [] }
      else
        match run tempDir opts.token ["clone", opts.sourceURL, "."] with
        | .error e =>
          { result := .error ("clone: failed to clone source repository: " ++ e)
            commands := [(tempDir, ["clone", opts.sourceURL, "."])] }
        | .ok _ =>
          if strHasPre "git@" opts.targetURL then
            { result := .error "clone: SSH URLs are not supported, please use HTTPS"
              commands := [(tempDir, ["clone", opts.sourceURL, "."])] }
          else
            match (if strHasPre "file://" opts.targetURL then Except.ok ()
              else validateURL opts.targetURL) with
            | .error e =>
              { result := .error ("clone: invalid target URL: " ++ e)
                commands := [(tempDir, ["clone", opts.sourceURL, "."])] }
            | .ok _ =>
              match run tempDir opts.token
                ["remote", "add", "target", opts.targetURL] with
              | .error e =>
                { result := .error ("clone: failed to add target remote: " ++ e)
                  commands := [(tempDir, ["clone", opts.sourceURL, "."]),
                    (tempDir, ["remote", "add", "target", opts.targetURL])] }
              | .ok _ =>
                match run tempDir opts.token ["push", "target", "--all"] with
                | .error e =>
                  { result := .error
                      ("clone: failed to push to target repository: " ++ e)
                    commands := [(tempDir, ["clone", opts.sourceURL, "."]),
                      (tempDir, ["remote", "add", "target", opts.targetURL]),
                      (tempDir, ["push", "target", "--all"])] }
                | .ok _ =>
                  { result := .ok ()
                    commands := [(tempDir, ["clone", opts.sourceURL, "."]),
                      (tempDir, ["remote", "add", "target", opts.targetURL]),
                      (tempDir, ["push", "target", "--all"])] }

/-- C7: exactly one mode per call. With a working directory the source is
cloned straight there and the call returns — the target URL plays no role
whatsoever in that mode. With no working directory a target URL is
required: both empty is the configuration error; otherwise the mirror
workflow issues exactly clone-into-temp, remote-add of the target, and a
push of all branches. An SSH-style (`git@...`) source always fails — with
the dedicated SSH error whenever the context is live. -/
theorem cloneRepository_mode_selection
    (validateURL : String → Except String Unit)
    (run : String → String → List String → Except String Unit)
    (tempDir : String) :
    (∀ opts : CloneOptions, opts.ctxCancelled = false →
      opts.sourceURL ≠ "" → strHasPre "git@" opts.sourceURL = false →
      strHasPre "file://" opts.sourceURL = true → opts.workingDir ≠ "" →
      run "" opts.token ["clone", opts.sourceURL, opts.workingDir] = .ok () →
      CloneRepository opts validateURL run tempDir =
        { result := .ok ()
          commands := [("", ["clone", opts.sourceURL, opts.workingDir])] }) ∧
    (∀ (opts : CloneOptions) (t₁ t₂ : String), opts.workingDir ≠ "" →
      CloneRepository { opts with targetURL := t₁ } validateURL run tempDir =
        CloneRepository { opts with targetURL := t₂ } validateURL run tempDir) ∧
    (∀ opts : CloneOptions, opts.ctxCancelled = false →
      opts.sourceURL ≠ "" → strHasPre "git@" opts.sourceURL = false →
      strHasPre "file://" opts.sourceURL = true →
      opts.workingDir = "" → opts.targetURL = "" →
      CloneRepository opts validateURL run tempDir =
        { result := .error
            "clone: either working directory or target URL must be specified"
          commands := [] }) ∧
    (∀ opts : CloneOptions, opts.ctxCancelled = false →
      opts.sourceURL ≠ "" → strHasPre "git@" opts.sourceURL = false →
      strHasPre "file://" opts.sourceURL = true →
      opts.workingDir = "" → opts.targetURL ≠ "" →
      strHasPre "git@" opts.targetURL = false →
      strHasPre "file://" opts.targetURL = true →
      run tempDir opts.token ["clone", opts.sourceURL, "."] = .ok () →
      run tempDir opts.token ["remote", "add", "target", opts.targetURL] = .ok () →
      run tempDir opts.token ["push", "target", "--all"] = .ok () →
      CloneRepository opts validateURL run tempDir =
        { result := .ok ()
          commands := [(tempDir, ["clone", opts.sourceURL, "."]),
            (tempDir, ["remote", "add", "target", opts.targetURL]),
            (tempDir, ["push", "target", "--all"])] }) ∧
    (∀ opts : CloneOptions, strHasPre "git@" opts.sourceURL = true →
      (∃ e, (CloneRepository opts validateURL run tempDir).result = .error e) ∧
      (opts.ctxCancelled = false →
        (CloneRepository opts validateURL run tempDir).result =
          .error "clone: SSH URLs are not supported, please use HTTPS")) := by
  refine ⟨?_, ?_, ?_, ?_, ?_⟩
  · intro opts hctx hs hssh hfile hw hrun
    simp [CloneRepository, hctx, hs, hssh, hfile, hw, hrun]
  · intro opts t₁ t₂ hw
    by_cases h1 : opts.sourceURL = ""
    · simp [CloneRepository, h1]
    · by_cases h2 : opts.ctxCancelled = true
      · simp [CloneRepository, h1, h2]
      · by_cases h3 : strHasPre "git@" opts.sourceURL = true
        · simp [CloneRepository, h1, h2, h3]
        · cases hv : (if strHasPre "file://" opts.sourceURL then Except.ok ()
            else validateURL opts.sourceURL) with
          | error e =>
            simp [CloneRepository, h1, h2, h3, hv]
          | ok u =>
            simp [CloneRepository, h1, h2, h3, hv, hw]
  · intro opts hctx hs hssh hfile hw ht
    simp [CloneRepository, hctx, hs, hssh, hfile, hw, ht]
  · intro opts hctx hs hssh hfile hw ht htssh htfile h1 h2 h3
    simp [CloneRepository, hctx, hs, hssh, hfile, hw, ht, htssh, htfile,
      h1, h2, h3]
  · intro opts hssh
    have hs : opts.sourceURL ≠ "" := by
      intro hempty
      rw [hempty] at hssh
      exact absurd hssh (by decide)
    constructor
    · by_cases h2 : opts.ctxCancelled = true
      · exact ⟨"clone: operation cancelled: context canceled",
          by simp [CloneRepository, hs, h2]⟩
      · exact ⟨"clone: SSH URLs are not supported, please use HTTPS",
          by simp [CloneRepository, hs, h2, hssh]⟩
    · intro hctx
      simp [CloneRepository, hs, hctx, hssh]

/-- Closed witness for `cloneRepository_mode_selection`: a `file://`
source with a working directory and an all-success git runner clones
directly. -/
theorem cloneRepository_mode_selection_witness :
    CloneRepository
      { sourceURL := "file:///tmp/src", targetURL := "", workingDir := "wd",
        token := "t", ctxCancelled := false }
      (fun _ => .ok ()) (fun _ _ _ => .ok ()) "tmp" =
      { result := .ok ()
        commands := [("", ["clone", "file:///tmp/src", "wd"])] } :=
  (cloneRepository_mode_selection (fun _ => .ok ()) (fun _ _ _ => .ok ())
    "tmp").1
    { sourceURL := "file:///tmp/src", targetURL := "", workingDir := "wd",
      token := "t", ctxCancelled := false }
    rfl (by decide) rfl rfl (by decide) rfl

end GoGitTools
